import Mathlib

/-!
Shallow embedding of `SecretsManagerAlb/alb_apikeys_rotator/lambda_function.py`,
an AWS Secrets Manager rotation Lambda that chains a three-slot API-key payload
and pushes the new key into ALB listener-rule header conditions.

External collaborators (the secret store and the ELBv2 control plane) are
modelled as explicit state; each operation returns the result together with
the list of write effects it issued, so that frame and idempotence properties
can be stated over the effect trace.
-/

namespace AlbRotator

/-- Errors the Python code can raise: `ClientError`/`ResourceNotFoundException`
from the secret store, the three `ValueError`s of `lambda_handler`
(distinguished by their message), JSON decode errors, and `KeyError`. -/
inductive PyErr where
  | resourceNotFound
  | notRotationEnabled
  | unknownVersion
  | invalidStagingState
  | jsonError
  | keyError
deriving DecidableEq, Repr

/-! ## Key generation (`key_generator`, lines 72-74)

`chars = string.ascii_uppercase + string.ascii_lowercase + string.digits`;
the key is `size` independent draws of `random.choice(chars)`.  The random
source is modelled as a stream `rng : Nat → Nat` of draws; draw `i` picks
`chars[rng i % len(chars)]`. -/

def keyChars : List Char :=
  "ABCDEFGHIJKLMNOPQRSTUVWXYZabcdefghijklmnopqrstuvwxyz0123456789".toList

def key_generator (rng : Nat → Nat) (size : Nat := 16) : String :=
  ⟨(List.range size).map (fun i => keyChars.getD (rng i % keyChars.length) 'A')⟩

/-! ## JSON payload serialization (`json.dumps`)

The payload written by `create_secret` is the dict
`{"key1": v1, "key2": v2, "key3": v3}` serialized by `json.dumps` with its
defaults (`ensure_ascii=True`, separators `", "` and `": "`, insertion
order preserved). -/

/-- Lowercase hexadecimal digit, as Python's `json` emits in `\uXXXX`. -/
def hexDigitChar (n : Nat) : Char :=
  if n < 10 then Char.ofNat (48 + n) else Char.ofNat (87 + n)

/-- The six-character escape `\uXXXX` for code point `n < 0x10000`. -/
def uEscape (n : Nat) : List Char :=
  ['\\', 'u', hexDigitChar (n / 4096 % 16), hexDigitChar (n / 256 % 16),
   hexDigitChar (n / 16 % 16), hexDigitChar (n % 16)]

/-- Escaping of one character by `json.dumps` (`ensure_ascii=True`):
short escapes for `"`, `\`, and common control characters, `\uXXXX` for the
remaining control and all non-ASCII characters (surrogate pairs above the
BMP), the character itself otherwise. -/
def escChar (c : Char) : List Char :=
  if c = '"' then ['\\', '"']
  else if c = '\\' then ['\\', '\\']
  else if c = '\n' then ['\\', 'n']
  else if c = '\t' then ['\\', 't']
  else if c = '\r' then ['\\', 'r']
  else if c.toNat = 8 then ['\\', 'b']
  else if c.toNat = 12 then ['\\', 'f']
  else if c.toNat < 32 then uEscape c.toNat
  else if c.toNat < 127 then [c]
  else if c.toNat < 65536 then uEscape c.toNat
  else uEscape (55296 + (c.toNat - 65536) / 1024) ++ uEscape (56320 + (c.toNat - 65536) % 1024)

def escapeL (s : List Char) : List Char :=
  (s.map escChar).flatten

/-- `json.dumps({"key1": a, "key2": b, "key3": c})`, at the character-list
level. -/
def jsonDumpsPayloadL (a b c : List Char) : List Char :=
  "\x7b\"key1\": \"".toList ++ escapeL a ++
  "\", \"key2\": \"".toList ++ escapeL b ++
  "\", \"key3\": \"".toList ++ escapeL c ++ "\"\x7d".toList

def jsonDumpsPayload (a b c : String) : String :=
  ⟨jsonDumpsPayloadL a.toList b.toList c.toList⟩

/-! ## Python `str.replace` with a one-character pattern

The source only ever calls `str.replace` with a single-character pattern
(`.replace("\\", "")` and `.replace("'", '"')`); for such patterns Python's
replace substitutes every occurrence of that character. -/

def replaceCharL (old : Char) (new : List Char) : List Char → List Char
  | [] => []
  | c :: t => if c = old then new ++ replaceCharL old new t else c :: replaceCharL old new t

def pyReplace (s : String) (old : Char) (new : String) : String :=
  ⟨replaceCharL old new.toList s.toList⟩

/-! ## JSON parsing (`json.loads`)

The payloads this program stores and reads are flat JSON objects whose
values are strings (spec §6: "a flat object with three fixed string
fields"), so the parser accepts exactly that shape: an object of
string-valued members.  Escapes inside strings are decoded (`\" \\ \/ \n
\t \r \b \f` and `\uXXXX`); raw control characters are rejected as in
Python's strict decoder.  Duplicate keys resolve to the last occurrence,
matching Python dict construction. -/

def isJsonWs (c : Char) : Bool :=
  c = ' ' || c = '\t' || c = '\n' || c = '\r'

def skipWs : List Char → List Char
  | [] => []
  | c :: t => if isJsonWs c then skipWs t else c :: t

def simpleEscape (c : Char) : Option Char :=
  if c = '"' then some '"'
  else if c = '\\' then some '\\'
  else if c = '/' then some '/'
  else if c = 'n' then some '\n'
  else if c = 't' then some '\t'
  else if c = 'r' then some '\r'
  else if c = 'b' then some (Char.ofNat 8)
  else if c = 'f' then some (Char.ofNat 12)
  else none

def hexVal (c : Char) : Option Nat :=
  if 48 ≤ c.toNat && c.toNat ≤ 57 then some (c.toNat - 48)
  else if 97 ≤ c.toNat && c.toNat ≤ 102 then some (c.toNat - 87)
  else if 65 ≤ c.toNat && c.toNat ≤ 70 then some (c.toNat - 55)
  else none

/-- Parse the body of a JSON string (the opening quote already consumed),
returning the decoded characters and the remainder after the closing
quote. -/
def parseJString : List Char → Option (List Char × List Char)
  | [] => none
  | c :: rest =>
    if c = '"' then some ([], rest)
    else if c = '\\' then
      match rest with
      | 'u' :: h1 :: h2 :: h3 :: h4 :: rest₂ =>
        match hexVal h1, hexVal h2, hexVal h3, hexVal h4 with
        | some n1, some n2, some n3, some n4 =>
          match parseJString rest₂ with
          | some (s, r) => some (Char.ofNat (n1 * 4096 + n2 * 256 + n3 * 16 + n4) :: s, r)
          | none => none
        | _, _, _, _ => none
      | e :: rest₂ =>
        match simpleEscape e with
        | some c₂ =>
          match parseJString rest₂ with
          | some (s, r) => some (c₂ :: s, r)
          | none => none
        | none => none
      | [] => none
    else if c.toNat < 32 then none
    else
      match parseJString rest with
      | some (s, r) => some (c :: s, r)
      | none => none

/-- Parse one `"key": "value"` member (leading whitespace allowed). -/
def parseMember (l : List Char) : Option ((String × String) × List Char) :=
  match skipWs l with
  | [] => none
  | c :: r =>
    if c = '"' then
      match parseJString r with
      | none => none
      | some (k, r₂) =>
        match skipWs r₂ with
        | [] => none
        | d :: r₃ =>
          if d = ':' then
            match skipWs r₃ with
            | [] => none
            | e :: r₄ =>
              if e = '"' then
                match parseJString r₄ with
                | none => none
                | some (v, r₅) => some ((⟨k⟩, ⟨v⟩), r₅)
              else none
          else none
    else none

/-- Parse the members after the first one: a `,`-separated tail closed by
`}`, on input whose leading whitespace is already skipped.  Fuel bounds
the recursion; the callers pass one more than the remaining length, which
always suffices since each step consumes at least the separator. -/
def parseMembersRestA : Nat → List (String × String) → List Char →
    Option (List (String × String) × List Char)
  | 0, _, _ => none
  | _ + 1, _, [] => none
  | fuel + 1, acc, c :: r =>
    if c = '}' then some (acc.reverse, r)
    else if c = ',' then
      match parseMember r with
      | none => none
      | some (kv, r₂) => parseMembersRestA fuel (kv :: acc) (skipWs r₂)
    else none

def parseMembersRest (fuel : Nat) (acc : List (String × String)) (l : List Char) :
    Option (List (String × String) × List Char) :=
  parseMembersRestA fuel acc (skipWs l)

/-- `json.loads` restricted to flat string-valued objects; `none` models a
raised `JSONDecodeError`. -/
def jsonLoadsL (l : List Char) : Option (List (String × String)) :=
  match skipWs l with
  | [] => none
  | c :: r =>
    if c = '{' then
      match skipWs r with
      | [] => none
      | d :: r₂ =>
        if d = '}' then (if (skipWs r₂).isEmpty then some [] else none)
        else
          match parseMember (d :: r₂) with
          | none => none
          | some (kv, r₃) =>
            match parseMembersRest (r₃.length + 1) [kv] r₃ with
            | none => none
            | some (m, r₄) => if (skipWs r₄).isEmpty then some m else none
    else none

def jsonLoads (s : String) : Option (List (String × String)) :=
  jsonLoadsL s.toList

/-- Python dict indexing `d[k]` on the parsed object: last binding of the
key wins (as in dict construction from repeated keys); `none` models a
raised `KeyError`. -/
def dictGet (m : List (String × String)) (k : String) : Option String :=
  m.foldl (fun acc kv => if kv.1 = k then some kv.2 else acc) none

/-! ## The secret store (Secrets Manager, as consumed by this program)

A secret is a list of versions in insertion order; a version carries its
staging labels and, once a value has been put, its secret string.  A
version can be present in `describe_secret`'s `VersionIdsToStages` with
stage `AWSPENDING` before any value is stored for it, in which case
`get_secret_value` raises `ResourceNotFoundException` — that is the state
`create_secret`'s try/except probes. -/

structure SecretVersion where
  stages : List String
  value : Option String
deriving DecidableEq, Repr

structure SecretRecord where
  rotationEnabled : Bool
  versions : List (String × SecretVersion)
deriving DecidableEq, Repr

/-- `get_secret_value(SecretId=…, VersionStage=stage)`: the value of the
version carrying `stage`; `ResourceNotFoundException` when no version
carries the stage or it has no value yet.  This is `get_secret`
(lines 55-64), which ignores its `token` parameter. -/
def getSecretByStage (r : SecretRecord) (stage : String) : Except PyErr String :=
  match r.versions.find? (fun e => e.2.stages.contains stage) with
  | some e =>
    match e.2.value with
    | some v => .ok v
    | none => .error .resourceNotFound
  | none => .error .resourceNotFound

/-- `get_secret_value(SecretId=…, VersionId=token, VersionStage=stage)`
(line 199): both the version id and the stage must match. -/
def getSecretByTokenStage (r : SecretRecord) (token stage : String) : Except PyErr String :=
  match r.versions.find? (fun e => e.1 = token && e.2.stages.contains stage) with
  | some e =>
    match e.2.value with
    | some v => .ok v
    | none => .error .resourceNotFound
  | none => .error .resourceNotFound

/-- `put_secret_value(SecretId=…, ClientRequestToken=token, SecretString=s,
VersionStages=stages)` applied to the store: version `token` now carries
`stages` and the value `s`. -/
def putVersion (r : SecretRecord) (token s : String) (stages : List String) : SecretRecord :=
  { r with versions := (token, ⟨stages, some s⟩) :: r.versions.filter (fun e => ¬ e.1 = token) }

/-! ## The load-balancer control plane (ELBv2, as consumed by this program) -/

structure HttpHeaderConfig where
  httpHeaderName : Option String
  values : List String
deriving DecidableEq, Repr

/-- A rule condition as the dict returned by `describe_rules`: an optional
`Field`, an optional `HttpHeaderConfig`, and the remaining keys
(e.g. `PathPatternConfig`) kept opaque. -/
structure Condition where
  field : Option String
  httpHeaderConfig : Option HttpHeaderConfig
  rest : List (String × String)
deriving DecidableEq, Repr

structure Rule where
  ruleArn : String
  isDefault : Bool
  conditions : List Condition
  actions : List String
deriving DecidableEq, Repr

structure Listener where
  listenerArn : String
  rules : List Rule
deriving DecidableEq, Repr

structure LoadBalancer where
  name : String
  arn : String
  listeners : List Listener
deriving DecidableEq, Repr

/-- The write operations the program issues against its collaborators, in
order.  Reads are not effects. -/
inductive Effect where
  | putSecretValue (token : String) (secretString : String) (stages : List String)
  | moveStage (toVersion : String) (fromVersion : Option String)
  | modifyRule (ruleArn : String) (conditions : List Condition) (actions : List String)
deriving DecidableEq, Repr

/-! ## `set_api_key_in_alb` (lines 89-170) -/

/-- The per-condition check and update of lines 153-166.  The Python
condition `"Field" in condition and condition["Field"] == "http-header"
and "HttpHeaderName" in condition["HttpHeaderConfig"] and … ==
"X-AWS-API-KEY"` short-circuits, but indexes `condition["HttpHeaderConfig"]`
unconditionally once the field matched — a `KeyError` when that key is
absent.  On a match, `Values` is replaced by the one-element list
`[secret_value]`. -/
def processCondition (k : String) (c : Condition) : Except PyErr Condition :=
  if c.field = some "http-header" then
    match c.httpHeaderConfig with
    | none => .error .keyError
    | some cfg =>
      if cfg.httpHeaderName = some "X-AWS-API-KEY" then
        .ok { c with httpHeaderConfig := some { cfg with values := [k] } }
      else .ok c
  else .ok c

/-- The `for condition in new_conditions` loop (lines 153-166): conditions
are visited in order; the first `KeyError` aborts. -/
def processConditions (k : String) : List Condition → Except PyErr (List Condition)
  | [] => .ok []
  | c :: cs =>
    match processCondition k c with
    | .error e => .error e
    | .ok c₂ =>
      match processConditions k cs with
      | .error e => .error e
      | .ok cs₂ => .ok (c₂ :: cs₂)

/-- The `for rule in rule_response["Rules"]` loop (lines 145-168): default
rules are skipped; every other rule gets a `modify_rule` call with the
processed condition list and the rule's own actions. -/
def processRules (k : String) : List Rule → Except PyErr Unit × List Effect
  | [] => (.ok (), [])
  | r :: rs =>
    if r.isDefault then processRules k rs
    else
      match processConditions k r.conditions with
      | .error e => (.error e, [])
      | .ok cs =>
        let (res, effs) := processRules k rs
        (res, .modifyRule r.ruleArn cs r.actions :: effs)

/-- The `for listener in listener_response["Listeners"]` loop (lines 138-168). -/
def processListeners (k : String) : List Listener → Except PyErr Unit × List Effect
  | [] => (.ok (), [])
  | l :: ls =>
    match processRules k l.rules with
    | (.error e, effs) => (.error e, effs)
    | (.ok _, effs) =>
      let (res, effs₂) := processListeners k ls
      (res, effs ++ effs₂)

/-- Boolean prefix test on character lists. -/
def startsWithL : List Char → List Char → Bool
  | [], _ => true
  | _ :: _, [] => false
  | a :: as₂, b :: bs => a == b && startsWithL as₂ bs

/-- Python's `needle in hay` substring test. -/
def containsSub (hay needle : List Char) : Bool :=
  match hay with
  | [] => needle.isEmpty
  | _ :: t => startsWithL needle hay || containsSub t needle

def strContains (hay needle : String) : Bool :=
  containsSub hay.toList needle.toList

/-- The `for alb in response['LoadBalancers']` loop (lines 108-168):
`rotate_this_alb` is true when the `ALBNAME` filter is empty or is a
substring of the balancer's name (in Python `"" in name` is also always
true). -/
def processAlbs (albFilter k : String) : List LoadBalancer → Except PyErr Unit × List Effect
  | [] => (.ok (), [])
  | a :: rest =>
    if albFilter = "" || strContains a.name albFilter then
      match processListeners k a.listeners with
      | (.error e, effs) => (.error e, effs)
      | (.ok _, effs) =>
        let (res, effs₂) := processAlbs albFilter k rest
        (res, effs ++ effs₂)
    else processAlbs albFilter k rest

/-- `set_api_key_in_alb(secret_value)` (lines 89-170): returns 1
immediately when the value is `None`, otherwise walks every load
balancer, listener, and rule, and returns 0. -/
def set_api_key_in_alb (albFilter : String) (albs : List LoadBalancer) (secretValue : Option String) :
    Except PyErr Nat × List Effect :=
  match secretValue with
  | none => (.ok 1, [])
  | some k =>
    match processAlbs albFilter k albs with
    | (.error e, effs) => (.error e, effs)
    | (.ok _, effs) => (.ok 0, effs)

/-! ## The four step handlers (lines 187-292) -/

/-- `create_secret` (lines 187-229): read the CURRENT value, parse it,
probe for a PENDING value under the token; when absent, chain the payload
(`key1 ← key2`, `key2 ← key3`, `key3 ← key_generator()`) and put it,
serialized with `json.dumps(…).replace("\\", "")`, staged `AWSPENDING`. -/
def create_secret (rng : Nat → Nat) (r : SecretRecord) (token : String) :
    Except PyErr Nat × List Effect :=
  match getSecretByStage r "AWSCURRENT" with
  | .error e => (.error e, [])
  | .ok old =>
    match jsonLoads old with
    | none => (.error .jsonError, [])
    | some _ =>
      match getSecretByTokenStage r token "AWSPENDING" with
      | .ok _ => (.ok 0, [])
      | .error _ =>
        match jsonLoads old with
        | none => (.error .jsonError, [])
        | some m =>
          match dictGet m "key2" with
          | none => (.error .keyError, [])
          | some k2 =>
            match dictGet m "key3" with
            | none => (.error .keyError, [])
            | some k3 =>
              let stored := pyReplace (jsonDumpsPayload k2 k3 (key_generator rng 16)) '\\' ""
              (.ok 0, [.putSecretValue token stored ["AWSPENDING"]])

/-- `set_secret` (lines 239-249): read the PENDING value, parse it after
`.replace("'", '"').replace("\\", "")`, and push its `key3` into the load
balancers. -/
def set_secret (albFilter : String) (albs : List LoadBalancer) (r : SecretRecord) :
    Except PyErr Nat × List Effect :=
  match getSecretByStage r "AWSPENDING" with
  | .error e => (.error e, [])
  | .ok s =>
    match jsonLoads (pyReplace (pyReplace s '\'' "\"") '\\' "") with
    | none => (.error .jsonError, [])
    | some m =>
      match dictGet m "key3" with
      | none => (.error .keyError, [])
      | some k => set_api_key_in_alb albFilter albs (some k)

/-- `test_secret` (lines 256-262): read both staged values, mutate
nothing. -/
def test_secret (r : SecretRecord) : Except PyErr Nat × List Effect :=
  match getSecretByStage r "AWSCURRENT" with
  | .error e => (.error e, [])
  | .ok _ =>
    match getSecretByStage r "AWSPENDING" with
    | .error e => (.error e, [])
    | .ok _ => (.ok 0, [])

/-- `finish_secret` (lines 270-292): read the PENDING value, find the
first version staged `AWSCURRENT`; when it is the token itself, return
(Python `None`) without moving; otherwise issue the stage move.  When no
version holds CURRENT, `current_version` stays `None` and is passed to
the move call as-is. -/
def finish_secret (r : SecretRecord) (token : String) : Except PyErr (Option Nat) × List Effect :=
  match getSecretByStage r "AWSPENDING" with
  | .error e => (.error e, [])
  | .ok _ =>
    match r.versions.find? (fun e => e.2.stages.contains "AWSCURRENT") with
    | some e =>
      if e.1 = token then (.ok none, [])
      else (.ok (some 0), [.moveStage token (some e.1)])
    | none => (.ok (some 0), [.moveStage token none])

/-! ## `lambda_handler` (lines 301-366) -/

/-- Python's `str.lower()`, character-wise. -/
def pyLower (s : String) : String :=
  ⟨s.toList.map Char.toLower⟩

structure LambdaEvent where
  step : String
  secretId : String
  clientRequestToken : Option String
deriving DecidableEq, Repr

structure LambdaResponse where
  statusCode : Nat
  body : String
deriving DecidableEq, Repr

/-- `lambda_handler` (lines 301-366): validate the staging of the event's
token, dispatch on the lowercased step name, and return the
`{statusCode: 200, body: "done."}` dict — except on the already-CURRENT
path, whose bare `return` yields Python `None` (modelled `Option`). -/
def lambda_handler (rng : Nat → Nat) (albFilter : String) (albs : List LoadBalancer)
    (r : SecretRecord) (ev : LambdaEvent) :
    Except PyErr (Option LambdaResponse) × List Effect :=
  let token := ev.clientRequestToken.getD ""
  if ¬ r.rotationEnabled then (.error .notRotationEnabled, [])
  else
    match r.versions.find? (fun e => e.1 = token) with
    | none => (.error .unknownVersion, [])
    | some e =>
      if e.2.stages.contains "AWSCURRENT" then (.ok none, [])
      else if ¬ e.2.stages.contains "AWSPENDING" then (.error .invalidStagingState, [])
      else
        let stepL := pyLower ev.step
        if stepL = "createsecret" then
          match create_secret rng r token with
          | (.ok _, effs) => (.ok (some ⟨200, "done."⟩), effs)
          | (.error er, effs) => (.error er, effs)
        else if stepL = "setsecret" then
          match set_secret albFilter albs r with
          | (.ok _, effs) => (.ok (some ⟨200, "done."⟩), effs)
          | (.error er, effs) => (.error er, effs)
        else if stepL = "testsecret" then
          match test_secret r with
          | (.ok _, effs) => (.ok (some ⟨200, "done."⟩), effs)
          | (.error er, effs) => (.error er, effs)
        else if stepL = "finishsecret" then
          match finish_secret r token with
          | (.ok _, effs) => (.ok (some ⟨200, "done."⟩), effs)
          | (.error er, effs) => (.error er, effs)
        else (.ok (some ⟨200, "done."⟩), [])

/-! ## Derived vocabulary used by the statements -/

/-- A condition matching the sentinel header, as checked on lines 154-158. -/
def condMatches (c : Condition) : Bool :=
  c.field = some "http-header" &&
    (match c.httpHeaderConfig with
     | some cfg => cfg.httpHeaderName = some "X-AWS-API-KEY"
     | none => false)

/-- The per-condition rewrite as a pure function: matching conditions get
their value list replaced by `[k]`, everything else is untouched. -/
def setKeyCond (k : String) (c : Condition) : Condition :=
  match c.httpHeaderConfig with
  | some cfg =>
    if condMatches c then { c with httpHeaderConfig := some { cfg with values := [k] } } else c
  | none => c

/-- Every condition whose field is the header-match field carries its
header config (as the ELBv2 API guarantees); without this the Python code
raises `KeyError`. -/
def ruleWellFormed (r : Rule) : Bool :=
  r.conditions.all (fun c => !(c.field = some "http-header") || c.httpHeaderConfig.isSome)

/-- All rules of all listeners of all load balancers in a control-plane
state. -/
def albRules (albs : List LoadBalancer) : List Rule :=
  (albs.map (fun a => (a.listeners.map (fun l => l.rules)).flatten)).flatten

/-- The arns of the non-default rules of a control-plane state. -/
def nonDefaultRuleArns (albs : List LoadBalancer) : List String :=
  ((albRules albs).filter (fun r => !r.isDefault)).map (fun r => r.ruleArn)

/-- Whether the version found under the event's token already carries the
`AWSCURRENT` label — the guard of `lambda_handler`'s early bare `return`
(lines 322-326). -/
def tokenIsCurrent (r : SecretRecord) (token : String) : Bool :=
  match r.versions.find? (fun e => e.1 = token) with
  | some e => e.2.stages.contains "AWSCURRENT"
  | none => false

/-! # Lemmas about the rule synchronizer -/

theorem processCondition_eq_setKeyCond (k : String) (c : Condition)
    (h : c.field = some "http-header" → c.httpHeaderConfig.isSome) :
    processCondition k c = .ok (setKeyCond k c) := by
  unfold processCondition setKeyCond condMatches
  by_cases hf : c.field = some "http-header"
  · cases hcfg : c.httpHeaderConfig with
    | none => rw [hcfg] at h; simp [hf] at h
    | some cfg =>
      by_cases hn : cfg.httpHeaderName = some "X-AWS-API-KEY"
      · simp [hf, hcfg, hn]
      · simp [hf, hcfg, hn]
  · cases hcfg : c.httpHeaderConfig <;> simp [hf, hcfg]

theorem processConditions_eq_map (k : String) (cs : List Condition)
    (h : ∀ c ∈ cs, c.field = some "http-header" → c.httpHeaderConfig.isSome) :
    processConditions k cs = .ok (cs.map (setKeyCond k)) := by
  induction cs with
  | nil => rfl
  | cons c cs ih =>
    simp only [processConditions, List.map_cons]
    rw [processCondition_eq_setKeyCond k c (h c (by simp)),
      ih (fun x hx => h x (by simp [hx]))]

theorem ruleWellFormed_cond (r : Rule) (hwf : ruleWellFormed r = true) :
    ∀ c ∈ r.conditions, c.field = some "http-header" → c.httpHeaderConfig.isSome := by
  intro c hc hf
  simp only [ruleWellFormed, List.all_eq_true] at hwf
  have := hwf c hc
  simpa [hf] using this

theorem setKeyCond_of_not_matches (k : String) (c : Condition) (h : condMatches c = false) :
    setKeyCond k c = c := by
  unfold setKeyCond
  cases hcfg : c.httpHeaderConfig <;> simp [h]

theorem map_setKeyCond_id (k : String) (cs : List Condition)
    (h : ∀ c ∈ cs, condMatches c = false) : cs.map (setKeyCond k) = cs := by
  induction cs with
  | nil => rfl
  | cons c cs ih =>
    simp only [List.map_cons, setKeyCond_of_not_matches k c (h c (by simp)),
      ih (fun x hx => h x (by simp [hx]))]

theorem processRules_arn_mem (k : String) (rs : List Rule) (eff : Effect)
    (arn : String) (cs : List Condition) (acts : List String)
    (hm : eff ∈ (processRules k rs).2) (he : eff = .modifyRule arn cs acts) :
    arn ∈ (rs.filter (fun r => !r.isDefault)).map (fun r => r.ruleArn) := by
  induction rs with
  | nil => simp [processRules] at hm
  | cons r rs ih =>
    by_cases hd : r.isDefault
    · simp only [processRules, if_pos hd] at hm
      simpa [List.filter_cons, hd] using ih hm
    · simp only [processRules, if_neg hd] at hm
      cases hpc : processConditions k r.conditions with
      | error e => rw [hpc] at hm; simp at hm
      | ok cs₂ =>
        rw [hpc] at hm
        rcases hrec : processRules k rs with ⟨res, effs⟩
        rw [hrec] at hm
        simp only [List.mem_cons] at hm
        rcases hm with hm | hm
        · rw [he] at hm
          cases hm
          simp [List.filter_cons, hd]
        · have := ih (by rw [hrec]; exact hm)
          simp only [List.filter_cons, hd]
          simpa using Or.inr (by simpa using this)

theorem processListeners_arn_mem (k : String) (ls : List Listener) (eff : Effect)
    (arn : String) (cs : List Condition) (acts : List String)
    (hm : eff ∈ (processListeners k ls).2) (he : eff = .modifyRule arn cs acts) :
    arn ∈ (((ls.map (fun l => l.rules)).flatten.filter (fun r => !r.isDefault)).map
      (fun r => r.ruleArn)) := by
  induction ls with
  | nil => simp [processListeners] at hm
  | cons l ls ih =>
    rcases hr : processRules k l.rules with ⟨res, effs⟩
    cases res with
    | error e =>
      simp only [processListeners, hr] at hm
      have := processRules_arn_mem k l.rules eff arn cs acts (by rw [hr]; exact hm) he
      simp only [List.map_cons, List.flatten_cons, List.filter_append, List.map_append,
        List.mem_append]
      exact Or.inl this
    | ok u =>
      simp only [processListeners, hr] at hm
      rcases hrec : processListeners k ls with ⟨res₂, effs₂⟩
      rw [hrec] at hm
      simp only [List.mem_append] at hm
      simp only [List.map_cons, List.flatten_cons, List.filter_append, List.map_append,
        List.mem_append]
      rcases hm with hm | hm
      · exact Or.inl (processRules_arn_mem k l.rules eff arn cs acts (by rw [hr]; exact hm) he)
      · exact Or.inr (ih (by rw [hrec]; exact hm))

theorem processAlbs_arn_mem (albFilter k : String) (albs : List LoadBalancer) (eff : Effect)
    (arn : String) (cs : List Condition) (acts : List String)
    (hm : eff ∈ (processAlbs albFilter k albs).2) (he : eff = .modifyRule arn cs acts) :
    arn ∈ nonDefaultRuleArns albs := by
  induction albs with
  | nil => simp [processAlbs] at hm
  | cons a albs ih =>
    have hsplit : nonDefaultRuleArns (a :: albs) =
        (((a.listeners.map (fun l => l.rules)).flatten.filter (fun r => !r.isDefault)).map
          (fun r => r.ruleArn)) ++ nonDefaultRuleArns albs := by
      simp [nonDefaultRuleArns, albRules, List.filter_append, List.map_append]
    by_cases hrot : (albFilter = "" || strContains a.name albFilter) = true
    · rcases hl : processListeners k a.listeners with ⟨res, effs⟩
      cases res with
      | error e =>
        simp only [processAlbs, hrot, if_pos, hl] at hm
        rw [hsplit]
        exact List.mem_append.mpr
          (Or.inl (processListeners_arn_mem k a.listeners eff arn cs acts (by rw [hl]; exact hm) he))
      | ok u =>
        simp only [processAlbs, hrot, if_pos, hl] at hm
        rcases hrec : processAlbs albFilter k albs with ⟨res₂, effs₂⟩
        rw [hrec] at hm
        simp only [List.mem_append] at hm
        rw [hsplit]
        rcases hm with hm | hm
        · exact List.mem_append.mpr (Or.inl
            (processListeners_arn_mem k a.listeners eff arn cs acts (by rw [hl]; exact hm) he))
        · exact List.mem_append.mpr (Or.inr (ih (by rw [hrec]; exact hm)))
    · simp only [processAlbs, hrot, if_neg, Bool.false_eq_true, if_false] at hm
      rw [hsplit]
      exact List.mem_append.mpr (Or.inr (ih hm))

/-! # The claims -/

/-- C2: for every input rule set and every target key, the rule
synchronizer never issues a rule update for a rule whose `IsDefault` flag
is true: every `modify_rule` effect it emits targets the arn of a
non-default rule, so default rules and their conditions are never
modified. -/
theorem claim_C2 (albFilter : String) (sv : Option String) (albs : List LoadBalancer)
    (eff : Effect) (arn : String) (cs : List Condition) (acts : List String)
    (hm : eff ∈ (set_api_key_in_alb albFilter albs sv).2) (he : eff = .modifyRule arn cs acts) :
    arn ∈ nonDefaultRuleArns albs := by
  cases sv with
  | none => simp [set_api_key_in_alb] at hm
  | some k =>
    rcases hp : processAlbs albFilter k albs with ⟨res, effs⟩
    cases res with
    | error e =>
      simp only [set_api_key_in_alb, hp] at hm
      exact processAlbs_arn_mem albFilter k albs eff arn cs acts (by rw [hp]; exact hm) he
    | ok u =>
      simp only [set_api_key_in_alb, hp] at hm
      exact processAlbs_arn_mem albFilter k albs eff arn cs acts (by rw [hp]; exact hm) he

/-- Witness for C2 at a concrete state holding one default and one
non-default rule. -/
theorem claim_C2_witness :
    ("r1" : String) ∈ nonDefaultRuleArns
      [⟨"lb", "arn", [⟨"lst", [⟨"rd", true, [], ["b"]⟩,
        ⟨"r1", false, [⟨some "path-pattern", none, []⟩], ["act"]⟩]⟩]⟩] :=
  claim_C2 "" (some "K") _ (.modifyRule "r1" [⟨some "path-pattern", none, []⟩] ["act"])
    "r1" [⟨some "path-pattern", none, []⟩] ["act"] (by decide) rfl

/-- C4 as stated is false: a non-default rule with no condition matching
the sentinel header still receives a `modify_rule` call (lines 149-167
issue the call for every non-default rule).  Concretely, a single
non-default rule with one path-pattern condition gets an update call. -/
theorem claim_C4_cex :
    (set_api_key_in_alb ""
      [⟨"lb", "arn", [⟨"lst", [⟨"r0", false, [⟨some "path-pattern", none, [("p", "q")]⟩],
        ["a"]⟩]⟩]⟩] (some "K")).2
      = [.modifyRule "r0" [⟨some "path-pattern", none, [("p", "q")]⟩] ["a"]] := by
  rfl

/-- C4 amended: for every non-default well-formed rule none of whose
conditions matches the sentinel header, the synchronizer does submit a
rule-update call for it, but the call carries the rule's original
condition list and action list unchanged, so the rule is semantically
left unmodified. -/
theorem claim_C4 (k : String) (r : Rule) (hwf : ruleWellFormed r = true)
    (hnd : r.isDefault = false)
    (hnm : ∀ c ∈ r.conditions, condMatches c = false) :
    processRules k [r] = (.ok (), [.modifyRule r.ruleArn r.conditions r.actions]) := by
  have hmap := map_setKeyCond_id k r.conditions hnm
  simp only [processRules, hnd, Bool.false_eq_true, if_false,
    processConditions_eq_map k r.conditions (ruleWellFormed_cond r hwf), hmap]

/-- Witness for C4 (amended) at a concrete non-matching rule. -/
theorem claim_C4_witness :
    processRules "K" [⟨"r0", false, [⟨some "path-pattern", none, [("p", "q")]⟩], ["a"]⟩]
      = (.ok (), [.modifyRule "r0" [⟨some "path-pattern", none, [("p", "q")]⟩] ["a"]]) :=
  claim_C4 "K" ⟨"r0", false, [⟨some "path-pattern", none, [("p", "q")]⟩], ["a"]⟩
    (by decide) rfl (by decide)

/-- C5: for every non-default well-formed rule processed with target key
`k`, the submitted update replaces the value list of each condition
matching the sentinel header (`Field = "http-header"`,
`HttpHeaderName = "X-AWS-API-KEY"`) by the one-element list `[k]`, keeps
every other condition and every non-value field of the matching
conditions unchanged, and submits the rule's own action list unchanged. -/
theorem claim_C5 (k : String) (r : Rule) (hwf : ruleWellFormed r = true)
    (hnd : r.isDefault = false) :
    processRules k [r] = (.ok (), [.modifyRule r.ruleArn (r.conditions.map (setKeyCond k))
      r.actions]) := by
  simp only [processRules, hnd, Bool.false_eq_true, if_false,
    processConditions_eq_map k r.conditions (ruleWellFormed_cond r hwf)]

/-- Witness for C5 at a concrete rule with one matching and one other
condition (end-to-end scenario 2 of the spec). -/
theorem claim_C5_witness :
    processRules "newKey99" [⟨"r1", false, [⟨some "path-pattern", none, []⟩,
      ⟨some "http-header", some ⟨some "X-AWS-API-KEY", ["old123"]⟩, []⟩], ["act"]⟩]
      = (.ok (), [.modifyRule "r1" [⟨some "path-pattern", none, []⟩,
        ⟨some "http-header", some ⟨some "X-AWS-API-KEY", ["newKey99"]⟩, []⟩] ["act"]]) := by
  rw [claim_C5 "newKey99" ⟨"r1", false, [⟨some "path-pattern", none, []⟩,
    ⟨some "http-header", some ⟨some "X-AWS-API-KEY", ["old123"]⟩, []⟩], ["act"]⟩ (by decide) rfl]
  rfl

/-- C8: for every rotation event on a rotation-enabled secret whose
version token is absent from the secret's version-to-stages mapping, the
entry point fails with the `UnknownVersion` error (the `ValueError` of
lines 315-321) before dispatching any step handler, and issues no write
effect at all. -/
theorem claim_C8 (rng : Nat → Nat) (albFilter : String) (albs : List LoadBalancer)
    (r : SecretRecord) (ev : LambdaEvent)
    (hrot : r.rotationEnabled = true)
    (habs : r.versions.find? (fun e => e.1 = ev.clientRequestToken.getD "") = none) :
    lambda_handler rng albFilter albs r ev = (.error .unknownVersion, []) := by
  unfold lambda_handler
  simp [hrot, habs]

/-- Witness for C8: end-to-end scenario 4 at a concrete store. -/
theorem claim_C8_witness :
    lambda_handler (fun _ => 0) "" [] ⟨true, [("t", ⟨["AWSCURRENT"], some "x"⟩)]⟩
      ⟨"createSecret", "sid", some "nope"⟩ = (.error .unknownVersion, []) :=
  claim_C8 (fun _ => 0) "" [] ⟨true, [("t", ⟨["AWSCURRENT"], some "x"⟩)]⟩
    ⟨"createSecret", "sid", some "nope"⟩ rfl (by decide)

/-- C9: for every rotation event that passes the staging validation
(token present, not CURRENT, staged PENDING) and whose step string does
not case-insensitively match any of the four step names, the entry point
invokes no step handler, issues no effect, and returns the success
response rather than raising. -/
theorem claim_C9 (rng : Nat → Nat) (albFilter : String) (albs : List LoadBalancer)
    (r : SecretRecord) (ev : LambdaEvent) (ver : String × SecretVersion)
    (hrot : r.rotationEnabled = true)
    (hfind : r.versions.find? (fun e => e.1 = ev.clientRequestToken.getD "") = some ver)
    (hnc : "AWSCURRENT" ∉ ver.2.stages)
    (hp : "AWSPENDING" ∈ ver.2.stages)
    (hstep : pyLower ev.step ∉
      (["createsecret", "setsecret", "testsecret", "finishsecret"] : List String)) :
    lambda_handler rng albFilter albs r ev = (.ok (some ⟨200, "done."⟩), []) := by
  simp only [List.mem_cons, List.not_mem_nil, or_false, not_or] at hstep
  obtain ⟨h1, h2, h3, h4⟩ := hstep
  unfold lambda_handler
  simp [hrot, hfind, hnc, hp, h1, h2, h3, h4]

/-- Witness for C9 at a concrete store and the unrecognized step
`"fooBar"`. -/
theorem claim_C9_witness :
    lambda_handler (fun _ => 0) "" []
      ⟨true, [("v1", ⟨["AWSCURRENT"], some "x"⟩), ("v2", ⟨["AWSPENDING"], none⟩)]⟩
      ⟨"fooBar", "sid", some "v2"⟩ = (.ok (some ⟨200, "done."⟩), []) :=
  claim_C9 (fun _ => 0) "" []
    ⟨true, [("v1", ⟨["AWSCURRENT"], some "x"⟩), ("v2", ⟨["AWSPENDING"], none⟩)]⟩
    ⟨"fooBar", "sid", some "v2"⟩ ("v2", ⟨["AWSPENDING"], none⟩)
    rfl (by decide) (by decide) (by decide) (by decide)

/-- C3 as stated is false: on the no-op idempotent path where the token
already holds `AWSCURRENT`, `lambda_handler` executes the bare `return`
of line 326 and so yields Python `None`, not the
`{statusCode: 200, body: "done."}` response. -/
theorem claim_C3_cex :
    lambda_handler (fun _ => 0) "" [] ⟨true, [("t", ⟨["AWSCURRENT"], some "x"⟩)]⟩
      ⟨"finishSecret", "sid", some "t"⟩ = (.ok none, []) ∧
    (Except.ok (none : Option LambdaResponse) : Except PyErr (Option LambdaResponse))
      ≠ .ok (some ⟨200, "done."⟩) := by
  exact ⟨rfl, by simp⟩

/-- C3 amended: every rotation event that completes without raising
returns `{statusCode: 200, body: "done."}` — except the idempotent-replay
path where the event's token already holds `AWSCURRENT`, which completes
with no return value (Python `None`).  The unrecognized-step no-op path
does return the success response. -/
theorem claim_C3 (rng : Nat → Nat) (albFilter : String) (albs : List LoadBalancer)
    (r : SecretRecord) (ev : LambdaEvent) (res : Option LambdaResponse) (effs : List Effect)
    (h : lambda_handler rng albFilter albs r ev = (.ok res, effs)) :
    res = if tokenIsCurrent r (ev.clientRequestToken.getD "") then none
      else some ⟨200, "done."⟩ := by
  unfold lambda_handler at h
  by_cases hrot : r.rotationEnabled = true
  · rw [if_neg (by simp [hrot])] at h
    cases hfind : r.versions.find? (fun e => e.1 = ev.clientRequestToken.getD "") with
    | none => simp only [hfind] at h; simp at h
    | some ver =>
      simp only [hfind] at h
      by_cases hc : "AWSCURRENT" ∈ ver.2.stages
      · rw [if_pos (by simpa using hc)] at h
        simp only [Prod.mk.injEq, Except.ok.injEq] at h
        simp [tokenIsCurrent, hfind, hc, ← h.1]
      · rw [if_neg (by simpa using hc)] at h
        by_cases hpend : "AWSPENDING" ∈ ver.2.stages
        · rw [if_neg (by simp [hpend])] at h
          have hgoal : (if tokenIsCurrent r (ev.clientRequestToken.getD "") then
              (none : Option LambdaResponse) else some ⟨200, "done."⟩) = some ⟨200, "done."⟩ := by
            simp [tokenIsCurrent, hfind, hc]
          rw [hgoal]
          split at h
          · split at h <;> simp_all
          · split at h
            · split at h <;> simp_all
            · split at h
              · split at h <;> simp_all
              · split at h
                · split at h <;> simp_all
                · simp_all
        · rw [if_pos (by simpa using hpend)] at h
          simp at h
  · rw [if_pos (by simp [hrot])] at h
    simp at h

/-- Witness for C3 (amended) at the unrecognized-step completion. -/
theorem claim_C3_witness :
    (some (⟨200, "done."⟩ : LambdaResponse) : Option LambdaResponse) =
      if tokenIsCurrent ⟨true, [("v1", ⟨["AWSCURRENT"], some "x"⟩), ("v2", ⟨["AWSPENDING"], none⟩)]⟩
        ((some "v2" : Option String).getD "") then none else some ⟨200, "done."⟩ :=
  claim_C3 (fun _ => 0) "" []
    ⟨true, [("v1", ⟨["AWSCURRENT"], some "x"⟩), ("v2", ⟨["AWSPENDING"], none⟩)]⟩
    ⟨"fooBar", "sid", some "v2"⟩ (some ⟨200, "done."⟩) [] rfl

/-! # Lemmas about the key generator and the secret store -/

theorem getD_mem_of_mem (l : List Char) (n : Nat) (d : Char) (hd : d ∈ l) : l.getD n d ∈ l := by
  rw [List.getD_eq_getElem?_getD]
  cases h : l[n]? with
  | none => simpa using hd
  | some ch => simpa using List.getElem?_mem h

theorem key_generator_length (rng : Nat → Nat) (n : Nat) : (key_generator rng n).length = n := by
  simp [key_generator, String.length]

theorem key_generator_mem (rng : Nat → Nat) (n : Nat) :
    ∀ ch ∈ (key_generator rng n).toList, ch ∈ keyChars := by
  intro ch hch
  simp only [key_generator, String.toList, List.mem_map, List.mem_range] at hch
  obtain ⟨i, _, hi⟩ := hch
  rw [← hi]
  exact getD_mem_of_mem keyChars _ 'A' (by decide)

/-- The put branch of `create_secret` (lines 203-227): when the CURRENT
value is readable and parses, and no PENDING value exists under the
token, the chained payload is put under the token staged `AWSPENDING`. -/
theorem create_secret_put (rng : Nat → Nat) (r : SecretRecord) (token cur b c : String)
    (m : List (String × String))
    (hcur : getSecretByStage r "AWSCURRENT" = .ok cur)
    (hparse : jsonLoads cur = some m)
    (h2 : dictGet m "key2" = some b) (h3 : dictGet m "key3" = some c)
    (hnp : getSecretByTokenStage r token "AWSPENDING" = .error .resourceNotFound) :
    create_secret rng r token = (.ok 0,
      [.putSecretValue token (pyReplace (jsonDumpsPayload b c (key_generator rng 16)) '\\' "")
        ["AWSPENDING"]]) := by
  unfold create_secret
  simp [hcur, hparse, h2, h3, hnp]

/-- The no-op branch of `create_secret` (lines 199-201): when a PENDING
value already exists for the token, nothing is generated or put. -/
theorem create_secret_noop (rng : Nat → Nat) (r : SecretRecord) (token cur v : String)
    (m : List (String × String))
    (hcur : getSecretByStage r "AWSCURRENT" = .ok cur)
    (hparse : jsonLoads cur = some m)
    (hp : getSecretByTokenStage r token "AWSPENDING" = .ok v) :
    create_secret rng r token = (.ok 0, []) := by
  unfold create_secret
  simp [hcur, hparse, hp]

theorem find?_filter_of_imp {α : Type} (p q : α → Bool) (l : List α)
    (h : ∀ x ∈ l, p x = true → q x = true) :
    (l.filter q).find? p = l.find? p := by
  induction l with
  | nil => rfl
  | cons x l ih =>
    have htail : ∀ y ∈ l, p y = true → q y = true := fun y hy => h y (by simp [hy])
    by_cases hq : q x = true
    · rw [List.filter_cons_of_pos hq]
      by_cases hp : p x = true
      · rw [List.find?_cons_of_pos _ hp, List.find?_cons_of_pos _ hp]
      · rw [List.find?_cons_of_neg _ hp, List.find?_cons_of_neg _ hp]
        exact ih htail
    · have hp : ¬ p x = true := fun hpx => hq (h x (by simp) hpx)
      rw [List.filter_cons_of_neg (by simpa using hq), List.find?_cons_of_neg _ hp]
      exact ih htail

/-- Putting a PENDING-staged version under a token that holds no CURRENT
label leaves the CURRENT read unchanged. -/
theorem getSecretByStage_putVersion (r : SecretRecord) (token s cur : String)
    (h1 : getSecretByStage r "AWSCURRENT" = .ok cur)
    (h6 : ∀ e ∈ r.versions, e.1 = token → e.2.stages.contains "AWSCURRENT" = false) :
    getSecretByStage (putVersion r token s ["AWSPENDING"]) "AWSCURRENT" = .ok cur := by
  unfold getSecretByStage putVersion
  simp only []
  rw [List.find?_cons_of_neg _ (by simp)]
  rw [find?_filter_of_imp _ _ _ (fun x hx hpx => by
    by_cases hxt : x.1 = token
    · rw [h6 x hx hxt] at hpx; exact absurd hpx (by simp)
    · simpa using hxt)]
  exact h1

/-- After the put, the PENDING value for the token reads back as the
stored string. -/
theorem getSecretByTokenStage_putVersion (r : SecretRecord) (token s : String) :
    getSecretByTokenStage (putVersion r token s ["AWSPENDING"]) token "AWSPENDING" = .ok s := by
  unfold getSecretByTokenStage putVersion
  simp only []
  rw [List.find?_cons_of_pos _ (by simp)]

/-- C1: for every rotation event on the create step where the secret's
CURRENT payload parses to `{key1 = a, key2 = b, key3 = c}` and no PENDING
value exists for the event's token, the create step puts exactly one new
PENDING version whose stored string is the chained payload
`{key1 = b, key2 = c, key3 = k}` (serialized as the code does, with
backslashes stripped) where `k` is the freshly generated key: a
16-character string over the alphabet `A-Z a-z 0-9`. -/
theorem claim_C1 (rng : Nat → Nat) (r : SecretRecord) (token cur a b c : String)
    (m : List (String × String))
    (hcur : getSecretByStage r "AWSCURRENT" = .ok cur)
    (hparse : jsonLoads cur = some m)
    (_h1 : dictGet m "key1" = some a) (h2 : dictGet m "key2" = some b)
    (h3 : dictGet m "key3" = some c)
    (hnp : getSecretByTokenStage r token "AWSPENDING" = .error .resourceNotFound) :
    create_secret rng r token = (.ok 0,
      [.putSecretValue token (pyReplace (jsonDumpsPayload b c (key_generator rng 16)) '\\' "")
        ["AWSPENDING"]])
    ∧ (key_generator rng 16).length = 16
    ∧ ∀ ch ∈ (key_generator rng 16).toList, ch ∈ keyChars :=
  ⟨create_secret_put rng r token cur b c m hcur hparse h2 h3 hnp,
   key_generator_length rng 16, key_generator_mem rng 16⟩

/-- Witness for C1: end-to-end scenario 1 at a concrete store and random
stream. -/
theorem claim_C1_witness :
    create_secret (fun i => i)
      ⟨true, [("v1", ⟨["AWSCURRENT"],
        some "\x7b\"key1\": \"A1\", \"key2\": \"B2\", \"key3\": \"C3\"\x7d"⟩)]⟩ "v2" = (.ok 0,
      [.putSecretValue "v2"
        (pyReplace (jsonDumpsPayload "B2" "C3" (key_generator (fun i => i) 16)) '\\' "")
        ["AWSPENDING"]])
    ∧ (key_generator (fun i => i) 16).length = 16
    ∧ ∀ ch ∈ (key_generator (fun i => i) 16).toList, ch ∈ keyChars :=
  claim_C1 (fun i => i)
    ⟨true, [("v1", ⟨["AWSCURRENT"],
      some "\x7b\"key1\": \"A1\", \"key2\": \"B2\", \"key3\": \"C3\"\x7d"⟩)]⟩ "v2"
    "\x7b\"key1\": \"A1\", \"key2\": \"B2\", \"key3\": \"C3\"\x7d" "A1" "B2" "C3"
    [("key1", "A1"), ("key2", "B2"), ("key3", "C3")]
    rfl rfl rfl rfl rfl rfl

/-- C6: invoking the create step twice with the same token and no
intervening finish writes at most one PENDING version: the first call
puts the chained payload, and the second call — run against the store
after that put, with any random stream — performs no put and no key
generation (its effect list is empty) and still returns success. -/
theorem claim_C6 (rng rng₂ : Nat → Nat) (r : SecretRecord) (token cur b c : String)
    (m : List (String × String))
    (hcur : getSecretByStage r "AWSCURRENT" = .ok cur)
    (hparse : jsonLoads cur = some m)
    (h2 : dictGet m "key2" = some b) (h3 : dictGet m "key3" = some c)
    (hnp : getSecretByTokenStage r token "AWSPENDING" = .error .resourceNotFound)
    (h6 : ∀ e ∈ r.versions, e.1 = token → e.2.stages.contains "AWSCURRENT" = false) :
    create_secret rng r token = (.ok 0,
      [.putSecretValue token (pyReplace (jsonDumpsPayload b c (key_generator rng 16)) '\\' "")
        ["AWSPENDING"]])
    ∧ create_secret rng₂
        (putVersion r token
          (pyReplace (jsonDumpsPayload b c (key_generator rng 16)) '\\' "") ["AWSPENDING"])
        token = (.ok 0, []) :=
  ⟨create_secret_put rng r token cur b c m hcur hparse h2 h3 hnp,
   create_secret_noop rng₂ _ token cur _ m
     (getSecretByStage_putVersion r token _ cur hcur h6) hparse
     (getSecretByTokenStage_putVersion r token _)⟩

/-- Witness for C6 at a concrete store and two distinct random streams. -/
theorem claim_C6_witness :
    create_secret (fun i => i)
      ⟨true, [("v1", ⟨["AWSCURRENT"],
        some "\x7b\"key1\": \"A1\", \"key2\": \"B2\", \"key3\": \"C3\"\x7d"⟩)]⟩ "v2" = (.ok 0,
      [.putSecretValue "v2"
        (pyReplace (jsonDumpsPayload "B2" "C3" (key_generator (fun i => i) 16)) '\\' "")
        ["AWSPENDING"]])
    ∧ create_secret (fun i => i + 7)
        (putVersion ⟨true, [("v1", ⟨["AWSCURRENT"],
          some "\x7b\"key1\": \"A1\", \"key2\": \"B2\", \"key3\": \"C3\"\x7d"⟩)]⟩ "v2"
          (pyReplace (jsonDumpsPayload "B2" "C3" (key_generator (fun i => i) 16)) '\\' "")
          ["AWSPENDING"])
        "v2" = (.ok 0, []) :=
  claim_C6 (fun i => i) (fun i => i + 7)
    ⟨true, [("v1", ⟨["AWSCURRENT"],
      some "\x7b\"key1\": \"A1\", \"key2\": \"B2\", \"key3\": \"C3\"\x7d"⟩)]⟩ "v2"
    "\x7b\"key1\": \"A1\", \"key2\": \"B2\", \"key3\": \"C3\"\x7d" "B2" "C3"
    [("key1", "A1"), ("key2", "B2"), ("key3", "C3")]
    rfl rfl rfl rfl rfl (by decide)

/-- C7: invoking the finish step when the given token already holds the
CURRENT label (and, per the spec's data-model invariant, no other version
does) performs zero stage-move calls on the secret store and returns
without raising. -/
theorem claim_C7 (r : SecretRecord) (token v : String)
    (hpend : getSecretByStage r "AWSPENDING" = .ok v)
    (hcur : ∃ e ∈ r.versions, e.1 = token ∧ e.2.stages.contains "AWSCURRENT" = true)
    (huniq : ∀ e ∈ r.versions, e.2.stages.contains "AWSCURRENT" = true → e.1 = token) :
    finish_secret r token = (.ok none, []) := by
  unfold finish_secret
  obtain ⟨e, hmem, _, hc⟩ := hcur
  have hsome : (r.versions.find? (fun e => e.2.stages.contains "AWSCURRENT")).isSome :=
    List.find?_isSome.mpr ⟨e, hmem, hc⟩
  obtain ⟨e₀, he₀⟩ := Option.isSome_iff_exists.mp hsome
  have hpe := List.find?_some he₀
  simp only [] at hpe
  have he₀tok : e₀.1 = token := huniq e₀ (List.mem_of_find?_eq_some he₀) hpe
  simp only [hpend, he₀]
  rw [if_pos he₀tok]

/-- Witness for C7: end-to-end scenario 3's store, token already
CURRENT. -/
theorem claim_C7_witness :
    finish_secret
      ⟨true, [("t", ⟨["AWSCURRENT"], some "x"⟩), ("p", ⟨["AWSPENDING"], some "y"⟩)]⟩ "t"
      = (.ok none, []) :=
  claim_C7 ⟨true, [("t", ⟨["AWSCURRENT"], some "x"⟩), ("p", ⟨["AWSPENDING"], some "y"⟩)]⟩
    "t" "y" rfl (by decide) (by decide)

end AlbRotator
namespace AlbRotator

theorem keyChars_ne_quote : ∀ ch ∈ keyChars, ¬ ch = '"' := by decide

theorem keyChars_ne_backslash : ∀ ch ∈ keyChars, ¬ ch = '\\' := by decide

theorem keyChars_ne_squote : ∀ ch ∈ keyChars, ¬ ch = '\'' := by decide

theorem keyChars_ge_32 : ∀ ch ∈ keyChars, ¬ ch.toNat < 32 := by decide

theorem escChar_keyChar : ∀ ch ∈ keyChars, escChar ch = [ch] := by decide

theorem escapeL_id (s : List Char) (h : ∀ ch ∈ s, ch ∈ keyChars) : escapeL s = s := by
  induction s with
  | nil => rfl
  | cons c t ih =>
    simp only [escapeL, List.map_cons, List.flatten_cons, escChar_keyChar c (h c (by simp))]
    rw [show (t.map escChar).flatten = escapeL t from rfl, ih (fun x hx => h x (by simp [hx]))]
    rfl

theorem replaceCharL_id (old : Char) (new l : List Char) (h : old ∉ l) :
    replaceCharL old new l = l := by
  induction l with
  | nil => rfl
  | cons c t ih =>
    have hne : ¬ c = old := fun hco => h (List.mem_cons.mpr (Or.inl hco.symm))
    simp only [replaceCharL, if_neg hne]
    rw [ih (fun hx => h (by simp [hx]))]

theorem skipWs_not (c : Char) (l : List Char) (h : isJsonWs c = false) :
    skipWs (c :: l) = c :: l := by
  simp [skipWs, h]

theorem skipWs_ws (c : Char) (l : List Char) (h : isJsonWs c = true) :
    skipWs (c :: l) = skipWs l := by
  simp [skipWs, h]

theorem parseJString_plain (s rest : List Char) (h : ∀ ch ∈ s, ch ∈ keyChars) :
    parseJString (s ++ '"' :: rest) = some (s, rest) := by
  induction s with
  | nil => rw [List.nil_append, parseJString.eq_def]; simp
  | cons c t ih =>
    have hc := h c (by simp)
    have iht := ih (fun x hx => h x (by simp [hx]))
    rw [List.cons_append, parseJString.eq_def]
    simp [keyChars_ne_quote c hc, keyChars_ne_backslash c hc, keyChars_ge_32 c hc, iht]

theorem parseMember_plain (k v rest : List Char)
    (hk : ∀ ch ∈ k, ch ∈ keyChars) (hv : ∀ ch ∈ v, ch ∈ keyChars) :
    parseMember ('"' :: (k ++ '"' :: ':' :: ' ' :: '"' :: (v ++ '"' :: rest)))
      = some ((⟨k⟩, ⟨v⟩), rest) := by
  unfold parseMember
  rw [skipWs_not _ _ (by decide)]
  simp only [parseJString_plain k _ hk]
  simp [skipWs_not, skipWs_ws, isJsonWs, parseJString_plain v rest hv]

theorem parseMember_ws (l : List Char) : parseMember (' ' :: l) = parseMember l := by
  unfold parseMember
  rw [skipWs_ws _ _ (by decide)]

theorem parseMember_key1 (v rest : List Char) (hv : ∀ ch ∈ v, ch ∈ keyChars) :
    parseMember ('"' :: 'k' :: 'e' :: 'y' :: '1' :: '"' :: ':' :: ' ' :: '"' :: (v ++ '"' :: rest))
      = some ((⟨['k', 'e', 'y', '1']⟩, ⟨v⟩), rest) := by
  simpa using parseMember_plain ['k', 'e', 'y', '1'] v rest (by decide) hv

theorem parseMember_key2 (v rest : List Char) (hv : ∀ ch ∈ v, ch ∈ keyChars) :
    parseMember ('"' :: 'k' :: 'e' :: 'y' :: '2' :: '"' :: ':' :: ' ' :: '"' :: (v ++ '"' :: rest))
      = some ((⟨['k', 'e', 'y', '2']⟩, ⟨v⟩), rest) := by
  simpa using parseMember_plain ['k', 'e', 'y', '2'] v rest (by decide) hv

theorem parseMember_key3 (v rest : List Char) (hv : ∀ ch ∈ v, ch ∈ keyChars) :
    parseMember ('"' :: 'k' :: 'e' :: 'y' :: '3' :: '"' :: ':' :: ' ' :: '"' :: (v ++ '"' :: rest))
      = some ((⟨['k', 'e', 'y', '3']⟩, ⟨v⟩), rest) := by
  simpa using parseMember_plain ['k', 'e', 'y', '3'] v rest (by decide) hv

theorem parseMembersRestA_mono (f : Nat) : ∀ (g : Nat) (acc : List (String × String))
    (l : List Char) (res : List (String × String) × List Char),
    parseMembersRestA f acc l = some res → f ≤ g → parseMembersRestA g acc l = some res := by
  induction f with
  | zero => intro g acc l res hf _; simp [parseMembersRestA] at hf
  | succ f ih =>
    intro g acc l res hf hfg
    obtain ⟨g, rfl⟩ : ∃ g₂, g = g₂ + 1 := ⟨g - 1, by omega⟩
    cases l with
    | nil => simp [parseMembersRestA] at hf
    | cons c r =>
      simp only [parseMembersRestA] at hf ⊢
      by_cases hc : c = '}'
      · rw [if_pos hc] at hf ⊢; exact hf
      · rw [if_neg hc] at hf ⊢
        by_cases hcm : c = ','
        · rw [if_pos hcm] at hf ⊢
          cases hpm : parseMember r with
          | none => rw [hpm] at hf; simp at hf
          | some kvr =>
            rw [hpm] at hf
            obtain ⟨kv, r₂⟩ := kvr
            exact ih g (kv :: acc) (skipWs r₂) res hf (by omega)
        · rw [if_neg hcm] at hf; simp at hf

theorem parseMembersRestA_run (acc : List (String × String)) (b c : List Char)
    (hb : ∀ ch ∈ b, ch ∈ keyChars) (hc : ∀ ch ∈ c, ch ∈ keyChars) :
    parseMembersRestA 3 acc
      (',' :: ' ' :: '"' :: 'k' :: 'e' :: 'y' :: '2' :: '"' :: ':' :: ' ' :: '"' ::
        (b ++ '"' :: ',' :: ' ' :: '"' :: 'k' :: 'e' :: 'y' :: '3' :: '"' :: ':' :: ' ' :: '"' ::
        (c ++ '"' :: '}' :: [])))
      = some (((⟨['k', 'e', 'y', '3']⟩, ⟨c⟩) :: (⟨['k', 'e', 'y', '2']⟩, ⟨b⟩) :: acc).reverse,
          []) := by
  have hm2 : parseMember (' ' :: '"' :: 'k' :: 'e' :: 'y' :: '2' :: '"' :: ':' :: ' ' :: '"' ::
      (b ++ '"' :: ',' :: ' ' :: '"' :: 'k' :: 'e' :: 'y' :: '3' :: '"' :: ':' :: ' ' :: '"' ::
      (c ++ '"' :: '}' :: [])))
      = some ((⟨['k', 'e', 'y', '2']⟩, ⟨b⟩),
          ',' :: ' ' :: '"' :: 'k' :: 'e' :: 'y' :: '3' :: '"' :: ':' :: ' ' :: '"' ::
          (c ++ '"' :: '}' :: [])) := by
    rw [parseMember_ws]
    exact parseMember_key2 b _ hb
  have hm3 : parseMember (' ' :: '"' :: 'k' :: 'e' :: 'y' :: '3' :: '"' :: ':' :: ' ' :: '"' ::
      (c ++ '"' :: '}' :: []))
      = some ((⟨['k', 'e', 'y', '3']⟩, ⟨c⟩), '}' :: []) := by
    rw [parseMember_ws]
    exact parseMember_key3 c _ hc
  simp [parseMembersRestA, hm2, hm3, skipWs_not, skipWs_ws, isJsonWs]

end AlbRotator
namespace AlbRotator

theorem membersTail_run (a b c : List Char)
    (hb : ∀ ch ∈ b, ch ∈ keyChars) (hc : ∀ ch ∈ c, ch ∈ keyChars)
    (F : Nat) (hF : 3 ≤ F) :
    parseMembersRestA F [("key1", (⟨a⟩ : String))]
      (',' :: ' ' :: '"' :: 'k' :: 'e' :: 'y' :: '2' :: '"' :: ':' :: ' ' :: '"' ::
        (b ++ '"' :: ',' :: ' ' :: '"' :: 'k' :: 'e' :: 'y' :: '3' :: '"' :: ':' :: ' ' :: '"' ::
        (c ++ '"' :: '}' :: [])))
      = some ([("key1", ⟨a⟩), ("key2", ⟨b⟩), ("key3", ⟨c⟩)], []) := by
  have h := parseMembersRestA_mono 3 F _ _ _
    (parseMembersRestA_run [("key1", (⟨a⟩ : String))] b c hb hc) hF
  simpa using h

theorem jsonLoadsL_plain (a b c : List Char)
    (ha : ∀ ch ∈ a, ch ∈ keyChars) (hb : ∀ ch ∈ b, ch ∈ keyChars)
    (hc : ∀ ch ∈ c, ch ∈ keyChars) :
    jsonLoadsL ('{' :: '"' :: 'k' :: 'e' :: 'y' :: '1' :: '"' :: ':' :: ' ' :: '"' ::
      (a ++ '"' :: ',' :: ' ' :: '"' :: 'k' :: 'e' :: 'y' :: '2' :: '"' :: ':' :: ' ' :: '"' ::
      (b ++ '"' :: ',' :: ' ' :: '"' :: 'k' :: 'e' :: 'y' :: '3' :: '"' :: ':' :: ' ' :: '"' ::
      (c ++ '"' :: '}' :: []))))
      = some [(⟨['k', 'e', 'y', '1']⟩, ⟨a⟩), (⟨['k', 'e', 'y', '2']⟩, ⟨b⟩),
          (⟨['k', 'e', 'y', '3']⟩, ⟨c⟩)] := by
  unfold jsonLoadsL
  simp [skipWs_not, skipWs_ws, isJsonWs, parseMember_key1 a _ ha, parseMembersRest]
  rw [membersTail_run a b c hb hc _ (by omega)]
  simp [skipWs]

end AlbRotator
namespace AlbRotator

theorem dumps_shape (a b c : List Char)
    (ha : ∀ ch ∈ a, ch ∈ keyChars) (hb : ∀ ch ∈ b, ch ∈ keyChars)
    (hc : ∀ ch ∈ c, ch ∈ keyChars) :
    jsonDumpsPayloadL a b c
      = '{' :: '"' :: 'k' :: 'e' :: 'y' :: '1' :: '"' :: ':' :: ' ' :: '"' ::
        (a ++ '"' :: ',' :: ' ' :: '"' :: 'k' :: 'e' :: 'y' :: '2' :: '"' :: ':' :: ' ' :: '"' ::
        (b ++ '"' :: ',' :: ' ' :: '"' :: 'k' :: 'e' :: 'y' :: '3' :: '"' :: ':' :: ' ' :: '"' ::
        (c ++ '"' :: '}' :: []))) := by
  unfold jsonDumpsPayloadL
  rw [escapeL_id a ha, escapeL_id b hb, escapeL_id c hc]
  rw [show "\x7b\"key1\": \"".toList = ['{', '"', 'k', 'e', 'y', '1', '"', ':', ' ', '"'] from rfl,
    show "\", \"key2\": \"".toList
      = ['"', ',', ' ', '"', 'k', 'e', 'y', '2', '"', ':', ' ', '"'] from rfl,
    show "\", \"key3\": \"".toList
      = ['"', ',', ' ', '"', 'k', 'e', 'y', '3', '"', ':', ' ', '"'] from rfl,
    show "\"\x7d".toList = ['"', '}'] from rfl]
  simp [List.append_assoc]

theorem backslash_not_mem (a b c : List Char)
    (ha : ∀ ch ∈ a, ch ∈ keyChars) (hb : ∀ ch ∈ b, ch ∈ keyChars)
    (hc : ∀ ch ∈ c, ch ∈ keyChars) : '\\' ∉ jsonDumpsPayloadL a b c := by
  unfold jsonDumpsPayloadL
  rw [escapeL_id a ha, escapeL_id b hb, escapeL_id c hc]
  intro hmem
  simp only [List.mem_append] at hmem
  rcases hmem with ((((((h | h) | h) | h) | h) | h) | h)
  · exact absurd h (by decide)
  · exact keyChars_ne_backslash _ (ha _ h) rfl
  · exact absurd h (by decide)
  · exact keyChars_ne_backslash _ (hb _ h) rfl
  · exact absurd h (by decide)
  · exact keyChars_ne_backslash _ (hc _ h) rfl
  · exact absurd h (by decide)

theorem squote_not_mem (a b c : List Char)
    (ha : ∀ ch ∈ a, ch ∈ keyChars) (hb : ∀ ch ∈ b, ch ∈ keyChars)
    (hc : ∀ ch ∈ c, ch ∈ keyChars) : '\'' ∉ jsonDumpsPayloadL a b c := by
  unfold jsonDumpsPayloadL
  rw [escapeL_id a ha, escapeL_id b hb, escapeL_id c hc]
  intro hmem
  simp only [List.mem_append] at hmem
  rcases hmem with ((((((h | h) | h) | h) | h) | h) | h)
  · exact absurd h (by decide)
  · exact keyChars_ne_squote _ (ha _ h) rfl
  · exact absurd h (by decide)
  · exact keyChars_ne_squote _ (hb _ h) rfl
  · exact absurd h (by decide)
  · exact keyChars_ne_squote _ (hc _ h) rfl
  · exact absurd h (by decide)

/-- C10: for every old payload whose three field values consist only of
characters from the key alphabet, the serialize-then-parse round trip
between the create and set steps holds: the string stored by create
(`json.dumps` with backslashes stripped), when processed by set's parse
(single quotes to double quotes, backslashes stripped, then JSON
decoding), yields exactly the same three-field mapping — so the `key3`
the set step pushes to the load balancer equals the `slotC` value the
create step stored. -/
theorem claim_C10 (a b c : String)
    (ha : ∀ ch ∈ a.toList, ch ∈ keyChars) (hb : ∀ ch ∈ b.toList, ch ∈ keyChars)
    (hc : ∀ ch ∈ c.toList, ch ∈ keyChars) :
    jsonLoads (pyReplace (pyReplace (pyReplace (jsonDumpsPayload a b c) '\\' "") '\'' "\"")
        '\\' "")
      = some [("key1", a), ("key2", b), ("key3", c)]
    ∧ dictGet [("key1", a), ("key2", b), ("key3", c)] "key3" = some c := by
  obtain ⟨aL⟩ := a
  obtain ⟨bL⟩ := b
  obtain ⟨cL⟩ := c
  replace ha : ∀ ch ∈ aL, ch ∈ keyChars := ha
  replace hb : ∀ ch ∈ bL, ch ∈ keyChars := hb
  replace hc : ∀ ch ∈ cL, ch ∈ keyChars := hc
  have hbs := backslash_not_mem aL bL cL ha hb hc
  have hsq := squote_not_mem aL bL cL ha hb hc
  constructor
  · have e1 : pyReplace (jsonDumpsPayload ⟨aL⟩ ⟨bL⟩ ⟨cL⟩) '\\' ""
        = (⟨jsonDumpsPayloadL aL bL cL⟩ : String) := by
      show (⟨replaceCharL '\\' [] (jsonDumpsPayloadL aL bL cL)⟩ : String) = _
      rw [replaceCharL_id _ _ _ hbs]
    have e2 : pyReplace (⟨jsonDumpsPayloadL aL bL cL⟩ : String) '\'' "\""
        = (⟨jsonDumpsPayloadL aL bL cL⟩ : String) := by
      show (⟨replaceCharL '\'' ['"'] (jsonDumpsPayloadL aL bL cL)⟩ : String) = _
      rw [replaceCharL_id _ _ _ hsq]
    have e3 : pyReplace (⟨jsonDumpsPayloadL aL bL cL⟩ : String) '\\' ""
        = (⟨jsonDumpsPayloadL aL bL cL⟩ : String) := by
      show (⟨replaceCharL '\\' [] (jsonDumpsPayloadL aL bL cL)⟩ : String) = _
      rw [replaceCharL_id _ _ _ hbs]
    rw [e1, e2, e3]
    show jsonLoadsL (jsonDumpsPayloadL aL bL cL) = _
    rw [dumps_shape aL bL cL ha hb hc]
    exact jsonLoadsL_plain aL bL cL ha hb hc
  · rfl

end AlbRotator

namespace AlbRotator

/-- Witness for C10 at a concrete all-alphanumeric payload. -/
theorem claim_C10_witness :
    jsonLoads (pyReplace (pyReplace (pyReplace (jsonDumpsPayload "aA1" "bB2" "cC3") '\\' "")
        '\'' "\"") '\\' "")
      = some [("key1", "aA1"), ("key2", "bB2"), ("key3", "cC3")]
    ∧ dictGet [("key1", "aA1"), ("key2", "bB2"), ("key3", "cC3")] "key3" = some "cC3" :=
  claim_C10 "aA1" "bB2" "cC3" (by decide) (by decide) (by decide)

end AlbRotator
